import Mathlib

/-!
Verification development for the `automatic-irrigation` repository
(`daily-irrigation.py`, `makkink_evaporation.py`).

The Python source is shallowly embedded: pure computations become Lean
functions on `ℚ`, the database collaborators become explicit lists, the
per-zone watering loop of `main` becomes a step function over an explicit
state together with a step-indexed runner, and physical side effects
(valve GPIO writes, ledger inserts) are recorded in an explicit effect
trace.  Real-valued sensor readings and elapsed times are inputs drawn
from an environment stream.
-/

namespace Irrigation

/-- `MAX_IRRIGATION` from daily-irrigation.py: maximal liters per m2 per run. -/
def MAX_IRRIGATION : ℚ := 10

/-- `EVAP_FACTOR` from daily-irrigation.py (correction factor on Makkink sum). -/
def EVAP_FACTOR : ℚ := 1

/-!
## FlowMeter (daily-irrigation.py lines 481-538)

State of a `FlowMeter` object.  `last_time` is the timestamp of the last
received pulse (seeded at construction); pulse timestamps are rationals.
The stray write `self.flow_rate = 0.0` in the stale branch of
`pulseCallback` initializes an attribute that no other code reads, so it
is not part of the state.
-/

structure FlowMeter where
  average_flow_rate : ℚ
  last_flow_rates : List ℚ
  last_flow_rate : ℚ
  last_time : ℚ
deriving DecidableEq

/-- `FlowMeter.__init__`: rate 0, empty buffer, `last_time` = construction time. -/
def FlowMeter.init (t : ℚ) : FlowMeter :=
  { average_flow_rate := 0, last_flow_rates := [], last_flow_rate := 0, last_time := t }

/-- `FlowMeter.pulseCallback` at a pulse arriving at time `t`:
`diff = t - last_time`; if `diff < 2` append `(1/diff)/7.5` to the buffer,
otherwise clear the buffer; in both branches set `last_time := t`. -/
def pulseCallback (fm : FlowMeter) (t : ℚ) : FlowMeter :=
  let diff := t - fm.last_time
  if diff < 2 then
    { fm with last_flow_rate := 1 / diff / 7.5,
              last_flow_rates := fm.last_flow_rates ++ [1 / diff / 7.5],
              last_time := t }
  else
    { fm with last_flow_rates := [], last_time := t }

/-- `FlowMeter.getFlowRate`: average of the buffered rates (0 if the buffer is
empty), then re-initialize the buffer.  Returns the reading and the new state. -/
def getFlowRate (fm : FlowMeter) : ℚ × FlowMeter :=
  let n := fm.last_flow_rates.length
  let avg := if 0 < n then fm.last_flow_rates.sum / (n : ℚ) else 0
  (avg, { fm with average_flow_rate := avg, last_flow_rates := [] })

/-- Feeding a sequence of pulse timestamps to the callback. -/
def pulses (fm : FlowMeter) (ts : List ℚ) : FlowMeter :=
  ts.foldl pulseCallback fm

/-- The rate values `(1/dt)/7.5` that the callback computes for a pulse train
starting from previous-pulse time `t0`. -/
def ratesOf (t0 : ℚ) : List ℚ → List ℚ
  | [] => []
  | t :: ts => (1 / (t - t0) / 7.5) :: ratesOf t ts

/-- All inter-pulse gaps (measured from previous-pulse time `t0`) are strictly
positive and smaller than the 2 s timeout. -/
def validGaps (t0 : ℚ) : List ℚ → Bool
  | [] => true
  | t :: ts => (decide (0 < t - t0) && decide (t - t0 < 2)) && validGaps t ts

/-!
## load_evaporation row filtering (daily-irrigation.py lines 241-265)

A row of the weewx `archive` query; a `none` field is a SQL NULL.  The Python
body appends `float(row[i])` field by field and catches the `TypeError`
raised by `float(None)`, so appends made before the first NULL field of a
row survive.  Scaling as in the source: pressure `* 100`, radiation
`* 5 * 60`.
-/

structure WeatherRow where
  outHumidity : Option ℚ
  outTemp : Option ℚ
  pressure : Option ℚ
  radiation : Option ℚ
  rain : Option ℚ

structure WeatherSeries where
  humidityDay : List ℚ
  tempDay : List ℚ
  pressureDay : List ℚ
  radiationDay : List ℚ
  rainDay : List ℚ
deriving DecidableEq

/-- One iteration of the `for row in cursor` loop of `load_evaporation`. -/
def processRow (s : WeatherSeries) (row : WeatherRow) : WeatherSeries :=
  match row.outHumidity with
  | none => s
  | some h =>
    let s1 := { s with humidityDay := s.humidityDay ++ [h] }
    match row.outTemp with
    | none => s1
    | some t =>
      let s2 := { s1 with tempDay := s1.tempDay ++ [t] }
      match row.pressure with
      | none => s2
      | some p =>
        let s3 := { s2 with pressureDay := s2.pressureDay ++ [p * 100] }
        match row.radiation with
        | none => s3
        | some r =>
          let s4 := { s3 with radiationDay := s3.radiationDay ++ [r * 5 * 60] }
          match row.rain with
          | none => s4
          | some rn => { s4 with rainDay := s4.rainDay ++ [rn] }

/-- `load_evaporation`, restricted to its row-filtering loop: fold the rows
returned by the archive query into the five per-field series. -/
def load_evaporation (rows : List WeatherRow) : WeatherSeries :=
  rows.foldl processRow ⟨[], [], [], [], []⟩

/-!
## Water budget (daily-irrigation.py lines 648-667 and parse_arguments 164-170)
-/

/-- `net_evap = evapSum * zone.get_shadow() - rainSum - waterSum` (line 653). -/
def netEvap (evapSum shadow rainSum waterSum : ℚ) : ℚ :=
  evapSum * shadow - rainSum - waterSum

/-- The deficit-mode per-zone depth decision (lines 657-665): the zone is
skipped (`none`) when `net_evap <= 1`, otherwise the depth is capped at
`MAX_IRRIGATION`. -/
def litersPerM2 (evapSum shadow rainSum waterSum : ℚ) : Option ℚ :=
  if netEvap evapSum shadow rainSum waterSum ≤ 1 then none
  else if MAX_IRRIGATION < netEvap evapSum shadow rainSum waterSum then some MAX_IRRIGATION
  else some (netEvap evapSum shadow rainSum waterSum)

/-- The per-zone target depth for both operating modes.  `parse_arguments`
sets `days = 0` whenever a nonzero fixed `amount` is given; `main` takes the
deficit branch only when `days > 0` and otherwise uses `amount` verbatim
(line 667), with no threshold test. -/
def targetDepth (days : ℕ) (amount evapSum shadow rainSum waterSum : ℚ) : Option ℚ :=
  if 0 < days then litersPerM2 evapSum shadow rainSum waterSum
  else some amount

/-!
## Irrigation ledger (daily-irrigation.py lines 267-349)
-/

/-- Python `round(q, 1)` as used by `save_irrigated` (`insert_water =
round(watering_mm, 1)`).  Modeled as rounding `10*q` to the nearest integer
(Python uses banker's rounding at exact halves; the two agree away from
halves and every statement below stays away from halves). -/
def round1 (q : ℚ) : ℚ := ((round (10 * q) : ℤ) : ℚ) / 10

/-- A row of the `irrigated` table. -/
structure LedgerRow where
  dateTime : ℚ
  zone : String
  watered : ℚ
deriving DecidableEq

/-- Character-list match of a pattern at the head of a string. -/
def charsMatchHere : List Char → List Char → Bool
  | [], _ => true
  | _ :: _, [] => false
  | a :: as, b :: bs => a == b && charsMatchHere as bs

/-- Character-list containment, implementing SQL `LIKE '%pat%'`. -/
def charsFound : List Char → List Char → Bool
  | p, [] => p.isEmpty
  | p, b :: bs => charsMatchHere p (b :: bs) || charsFound p bs

/-- The `zone LIKE '%<name>%'` filter of the `load_irrigated` query. -/
def likeMatch (pat s : String) : Bool :=
  charsFound pat.toList s.toList

/-- `save_irrigated`: insert `(t, zone, round(watering_mm, 1))` into the
`irrigated` table, but only when `watering_mm > 0.0`. -/
def save_irrigated (ledger : List LedgerRow) (zname : String) (watering_mm : ℚ)
    (t : ℚ) : List LedgerRow :=
  if 0 < watering_mm then ledger ++ [⟨t, zname, round1 watering_mm⟩] else ledger

/-- `load_irrigated`: the `watered` values of the rows inside the look-back
window (`dateTime >= cutoff`) whose `zone` column contains `zname`. -/
def load_irrigated (ledger : List LedgerRow) (zname : String) (cutoff : ℚ) : List ℚ :=
  (ledger.filter fun r => decide (cutoff ≤ r.dateTime) && likeMatch zname r.zone).map
    LedgerRow.watered

/-- `waterSum = numpy.sum(waterDay)` over the loaded history (line 650). -/
def waterSumOf (ledger : List LedgerRow) (zname : String) (cutoff : ℚ) : ℚ :=
  (load_irrigated ledger zname cutoff).sum

/-!
## Zone delivery session (daily-irrigation.py lines 683-853)

Physical side effects are recorded as an explicit trace.  Sends to the
valves happen in `main` only under `if (not emulating)`, and the ledger
insert happens inside `save_irrigated` only when the depth is positive.
-/

inductive Effect where
  | openZoneValve : Effect
  | closeZoneValve : Effect
  | openSourceValve : ℕ → Effect
  | closeSourceValve : ℕ → Effect
  | ledgerWrite : String → ℚ → Effect
deriving DecidableEq

/-- Configuration of one zone watering session: the emulation flag, the
zone's name, area and `flow_required`, the target `liters`, and the number
of configured water sources (`len(sources)`, 2 in the script). -/
structure SessionCfg where
  emulating : Bool
  name : String
  area : ℚ
  liters : ℚ
  flow_required : ℚ
  numSources : ℕ

/-- Environment inputs consumed by one iteration of the monitoring loop:
whether the sleep was interrupted, the real elapsed seconds since the
previous sample, the flow sample, and (used only on a source switch)
whether the post-switch settle sleep was interrupted and the post-switch
flow sample. -/
structure Tick where
  interrupt : Bool
  secs : ℚ
  rate : ℚ
  switchInterrupt : Bool
  switchRate : ℚ

/-- Mutable state of the monitoring loop: current source index,
`actual_liters`, `duration`, and `previous_flow_rate`. -/
structure MonState where
  sourceIdx : ℕ
  actual : ℚ
  duration : ℚ
  prevRate : ℚ
deriving DecidableEq

inductive Outcome where
  | complete : Outcome
  | failed : Outcome
  | interrupted : Outcome
deriving DecidableEq

/-- A session in progress (`cont`) or ended (`done` with outcome, final
source index and accumulated effect trace). -/
inductive StepRes where
  | cont : MonState → List Effect → StepRes
  | done : Outcome → ℕ → List Effect → StepRes
deriving DecidableEq

/-- The ledger insert performed by `save_irrigated` (only for positive depth). -/
def saveIrr (zname : String) (mm : ℚ) : List Effect :=
  if 0 < mm then [.ledgerWrite zname (round1 mm)] else []

/-- The interrupt handlers of `main` (lines 699-717, 731-750, 799-814):
close the zone valve and the current source valve and persist
`actual_liters / area`, all only when not emulating. -/
def stopEffects (cfg : SessionCfg) (idx : ℕ) (actual : ℚ) : List Effect :=
  if cfg.emulating then []
  else [.closeZoneValve, .closeSourceValve idx] ++ saveIrr cfg.name (actual / cfg.area)

/-- End of a normal watering (lines 832-853): close zone and source valves,
persist the delivered depth; all only when not emulating. -/
def completeEffects (cfg : SessionCfg) (idx : ℕ) (actual : ℚ) : List Effect :=
  if cfg.emulating then []
  else [.closeZoneValve, .closeSourceValve idx] ++ saveIrr cfg.name (actual / cfg.area)

/-- Valve opening before the priming wait (lines 683-692), only when not
emulating. -/
def primeEffects (cfg : SessionCfg) (idx : ℕ) : List Effect :=
  if cfg.emulating then [] else [.openZoneValve, .openSourceValve idx]

/-- One iteration of the `while duration > 0` loop (lines 727-830), entered
with `0 < duration`.

* An interrupt during the monitoring sleep ends the session (`exit(-1)`).
* If the sample and the previous sample are both below `flow_required`
  (line 758) the current source valve is closed; if a further source
  exists the session re-primes on it and recomputes `duration` from the
  still-outstanding `liters - actual_liters` (line 818), otherwise the
  session ends in `failed` after persisting the partial depth
  (lines 765-786).
* Otherwise `actual_liters` accumulates the elapsed volume and `duration`
  is recomputed with the rate floored at 1 L/min (lines 822-823). -/
def monStep (cfg : SessionCfg) (s : MonState) (tk : Tick) : StepRes :=
  if tk.interrupt then
    .done .interrupted s.sourceIdx (stopEffects cfg s.sourceIdx s.actual)
  else if tk.rate < cfg.flow_required ∧ s.prevRate < cfg.flow_required then
    if s.sourceIdx < cfg.numSources - 1 then
      if tk.switchInterrupt then
        .done .interrupted (s.sourceIdx + 1)
          ((if cfg.emulating then [] else [.closeSourceValve s.sourceIdx]) ++
           (if cfg.emulating then [] else [.openSourceValve (s.sourceIdx + 1)]) ++
           stopEffects cfg (s.sourceIdx + 1) s.actual)
      else
        .cont ⟨s.sourceIdx + 1, s.actual,
               (cfg.liters - s.actual) / max tk.switchRate 1 * 60, tk.switchRate⟩
          ((if cfg.emulating then [] else [.closeSourceValve s.sourceIdx]) ++
           (if cfg.emulating then [] else [.openSourceValve (s.sourceIdx + 1)]))
    else
      .done .failed s.sourceIdx
        ((if cfg.emulating then [] else [.closeSourceValve s.sourceIdx]) ++
         (if cfg.emulating then [] else
            [.closeZoneValve] ++ saveIrr cfg.name (s.actual / cfg.area)))
  else
    .cont ⟨s.sourceIdx, s.actual + tk.secs / 60 * tk.rate,
           (cfg.liters - (s.actual + tk.secs / 60 * tk.rate)) / max tk.rate 1 * 60,
           tk.rate⟩ []

/-- The loop guard plus one iteration: a finished session stays finished; a
running session with `duration <= 0` exits the loop and performs the
completion sequence. -/
def runStep (cfg : SessionCfg) (r : StepRes) (tk : Tick) : StepRes :=
  match r with
  | .done o i e => .done o i e
  | .cont s e =>
    if 0 < s.duration then
      match monStep cfg s tk with
      | .cont s1 e1 => .cont s1 (e ++ e1)
      | .done o i e1 => .done o i (e ++ e1)
    else
      .done .complete s.sourceIdx (e ++ completeEffects cfg s.sourceIdx s.actual)

/-- The session after `n` loop iterations, consuming the environment stream
`inputs`. -/
def runN (cfg : SessionCfg) (inputs : ℕ → Tick) (init : StepRes) : ℕ → StepRes
  | 0 => init
  | n + 1 => runStep cfg (runN cfg inputs init n) (inputs n)

/-- Environment of the 10 s priming wait: whether it is interrupted and the
first flow sample. -/
structure Priming where
  interrupt : Bool
  rate : ℚ

/-- Session start (lines 683-726): open the valves; if the priming sleep is
interrupted the session ends with `actual_liters = 0`; otherwise
`actual_liters = 10/60 * rate` and, as in line 722, the initial `duration`
is `liters / max(rate, 1) * 60` (computed from the full target). -/
def sessionInit (cfg : SessionCfg) (idx : ℕ) (p : Priming) : StepRes :=
  if p.interrupt then
    .done .interrupted idx (primeEffects cfg idx ++ stopEffects cfg idx 0)
  else
    .cont ⟨idx, 10 / 60 * p.rate, cfg.liters / max p.rate 1 * 60, p.rate⟩
      (primeEffects cfg idx)

/-- The effect trace carried by a session result. -/
def effOf : StepRes → List Effect
  | .cont _ e => e
  | .done _ _ e => e

/-!
## Whole-run iteration over zones (daily-irrigation.py lines 636-866)
-/

/-- Everything `main` knows about one zone before its session: its name,
area, `flow_required`, the target depth decision (`none` when the zone is
skipped by the `net_evap <= 1` test), and the environment of its session. -/
structure ZoneSpec where
  name : String
  area : ℚ
  flow_required : ℚ
  target : Option ℚ
  prime : Priming
  ticks : ℕ → Tick

inductive ZoneEnd where
  | skipped : ZoneEnd
  | reported : ZoneEnd
  | completed : ZoneEnd
  | failed : ZoneEnd
  | interrupted : ZoneEnd
  | running : ZoneEnd
deriving DecidableEq

/-- The session configuration `main` builds for a zone with target depth
`lpm`: `liters = zone.get_area() * liters_per_m2` (line 671). -/
def zoneCfg (em : Bool) (nS : ℕ) (z : ZoneSpec) (lpm : ℚ) : SessionCfg :=
  ⟨em, z.name, z.area, z.area * lpm, z.flow_required, nS⟩

/-- The `for zone in zones` loop.  A skipped zone (`target = none`) and an
info-mode zone produce no session.  A session is run for `fuel` loop
iterations; a `failed` or `interrupted` session calls `exit(-1)`, so the
remaining zones are not processed.  A `complete` session carries its final
source index over to the next zone (`source_index` is never reset). -/
def runProgram (em info : Bool) (nS fuel : ℕ) :
    ℕ → List ZoneSpec → List (String × ZoneEnd) × List Effect
  | _, [] => ([], [])
  | idx, z :: rest =>
    match z.target with
    | none =>
      let r := runProgram em info nS fuel idx rest
      ((z.name, .skipped) :: r.1, r.2)
    | some lpm =>
      if info then
        let r := runProgram em info nS fuel idx rest
        ((z.name, .reported) :: r.1, r.2)
      else
        match runN (zoneCfg em nS z lpm) z.ticks
            (sessionInit (zoneCfg em nS z lpm) idx z.prime) fuel with
        | .cont _ e => ([(z.name, .running)], e)
        | .done .complete i e =>
          let r := runProgram em info nS fuel i rest
          ((z.name, .completed) :: r.1, e ++ r.2)
        | .done .failed _ e => ([(z.name, .failed)], e)
        | .done .interrupted _ e => ([(z.name, .interrupted)], e)

/-- `main` forces `emulating = True` whenever `--info` is given
(parse_arguments lines 177-179). -/
def effectiveEmulating (emulateFlag infoFlag : Bool) : Bool :=
  emulateFlag || infoFlag

/-- The zone loop as entered from `main`, with the emulation flag derived
from the command-line flags. -/
def mainRun (emulateFlag infoFlag : Bool) (nS fuel idx : ℕ) (zs : List ZoneSpec) :
    List (String × ZoneEnd) × List Effect :=
  runProgram (effectiveEmulating emulateFlag infoFlag) infoFlag nS fuel idx zs

/-!
## Termination bookkeeping
-/

/-- Physical validity of the environment stream: each monitoring sleep lasts
at least `min(loop_seconds, max(duration, 5)) >= 5` real seconds, and flow
samples are non-negative. -/
def ValidInputs (inputs : ℕ → Tick) : Prop :=
  ∀ n, 5 ≤ (inputs n).secs ∧ 0 ≤ (inputs n).rate

/-- Guaranteed volume progress of a monitoring iteration whose sample meets
`flow_required`: at least `5/60 * flow_required` liters. -/
def stepDelta (cfg : SessionCfg) : ℚ := cfg.flow_required / 12

/-- Termination measure: sources still available for switching plus the
number of guaranteed-progress iterations still needed. -/
def meas (cfg : SessionCfg) (s : MonState) : ℕ :=
  (cfg.numSources - 1 - s.sourceIdx) + ⌈(cfg.liters - s.actual) / stepDelta cfg⌉₊

/-- Loop states produced by the loop body: a positive `duration` means the
target has not been reached (`duration` is recomputed as
`(liters - actual) / max(rate, 1) * 60` each iteration). -/
def goodState (cfg : SessionCfg) (s : MonState) : Prop :=
  0 < s.duration → s.actual < cfg.liters

/-!
## Concrete instances used by witnesses and counterexamples
-/

/-- A monitoring tick with no flow at all. -/
def tickZero : Tick := ⟨false, 60, 0, false, 0⟩

/-- A monitoring tick with a healthy 6 L/min flow. -/
def tickSix : Tick := ⟨false, 60, 6, false, 0⟩

/-- Zone "Z1": 2 m2, min flow 0.5 L/min, target depth 50 mm, primed at
6 L/min, then starved (every sample 0). -/
def zSpec1 : ZoneSpec := ⟨"Z1", 2, 1/2, some 50, ⟨false, 6⟩, fun _ => tickZero⟩

/-- Zone "Z2": identical to "Z1"; configured after it. -/
def zSpec2 : ZoneSpec := ⟨"Z2", 2, 1/2, some 50, ⟨false, 6⟩, fun _ => tickZero⟩

/-- Zone "Z8": fixed-mode target depth 0.5 mm (below the 1 mm threshold),
with sustained 6 L/min flow. -/
def zSpec8 : ZoneSpec :=
  ⟨"Z8", 2, 1/2, targetDepth 0 (1/2) 0 0 0 0, ⟨false, 6⟩, fun _ => tickSix⟩

/-- Session configuration used by the termination witness. -/
def cfg7 : SessionCfg := ⟨true, "W", 1, 100, 1/2, 2⟩

/-- Constant environment stream used by the termination witness. -/
def ticks7 : ℕ → Tick := fun _ => ⟨false, 60, 10, false, 0⟩

/-!
# Theorems

## FlowMeter
-/

theorem ratesOf_length (t0 : ℚ) (ts : List ℚ) : (ratesOf t0 ts).length = ts.length := by
  induction ts generalizing t0 with
  | nil => rfl
  | cons t ts ih => simp [ratesOf, ih]

theorem pulses_buffer (ts : List ℚ) : ∀ fm : FlowMeter, validGaps fm.last_time ts = true →
    (pulses fm ts).last_flow_rates = fm.last_flow_rates ++ ratesOf fm.last_time ts := by
  induction ts with
  | nil => intro fm _; simp [pulses, ratesOf]
  | cons t ts ih =>
    intro fm hg
    simp only [validGaps, Bool.and_eq_true, decide_eq_true_eq] at hg
    obtain ⟨⟨hpos, hlt⟩, hg2⟩ := hg
    have hcb : pulseCallback fm t =
        { fm with last_flow_rate := 1 / (t - fm.last_time) / 7.5,
                  last_flow_rates := fm.last_flow_rates ++ [1 / (t - fm.last_time) / 7.5],
                  last_time := t } := by
      simp [pulseCallback, hlt]
    have hstep : pulses fm (t :: ts) = pulses (pulseCallback fm t) ts := rfl
    rw [hstep, ih _ (by rw [hcb]; exact hg2), hcb]
    simp [ratesOf]

/-- Claim C5: for a pulse train whose inter-pulse intervals are all below the
2 s timeout, `getFlowRate` returns the arithmetic mean of `(1/dt)/7.5` over
exactly the pulses received since the previous read (0 when there are
none), clears the buffer, and an immediate second read returns 0, so
consecutive reads observe disjoint windows. -/
theorem C5_flow (fm : FlowMeter) (ts : List ℚ)
    (h0 : fm.last_flow_rates = []) (hg : validGaps fm.last_time ts = true) :
    ((getFlowRate (pulses fm ts)).1 =
        if ts = [] then 0 else (ratesOf fm.last_time ts).sum / (ts.length : ℚ))
    ∧ (ratesOf fm.last_time ts).length = ts.length
    ∧ (getFlowRate (pulses fm ts)).2.last_flow_rates = []
    ∧ (getFlowRate ((getFlowRate (pulses fm ts)).2)).1 = 0 := by
  have hb : (pulses fm ts).last_flow_rates = ratesOf fm.last_time ts := by
    rw [pulses_buffer ts fm hg, h0]; rfl
  refine ⟨?_, ratesOf_length _ _, rfl, rfl⟩
  simp only [getFlowRate, hb, ratesOf_length]
  rcases ts with _ | ⟨t, ts⟩
  · simp [ratesOf]
  · simp

theorem C5_flow_witness :
    validGaps (FlowMeter.init 0).last_time [1, 2] = true ∧
    (getFlowRate (pulses (FlowMeter.init 0) [1, 2])).1 = 2 / 15 := by
  have hg : validGaps (FlowMeter.init 0).last_time [1, 2] = true := by
    norm_num [validGaps, FlowMeter.init]
  refine ⟨hg, ?_⟩
  have h := C5_flow (FlowMeter.init 0) [1, 2] rfl hg
  rw [h.1, if_neg (by simp)]
  norm_num [ratesOf, FlowMeter.init]

/-- Claim C6: a pulse arriving 2 s or more after the previous one discards
the rate buffer, the next read (absent new pulses) returns 0, and
`last_time` is updated to the pulse time on every pulse in either branch
(pulse times strictly increase, so the time difference is positive). -/
theorem C6_stale (fm : FlowMeter) (t u : ℚ)
    (hstale : 2 ≤ t - fm.last_time) (_hu : fm.last_time < u) :
    (pulseCallback fm t).last_flow_rates = []
    ∧ (getFlowRate (pulseCallback fm t)).1 = 0
    ∧ (pulseCallback fm t).last_time = t
    ∧ (pulseCallback fm u).last_time = u := by
  have hnot : ¬ (t - fm.last_time < 2) := not_lt.mpr hstale
  refine ⟨?_, ?_, ?_, ?_⟩
  · simp [pulseCallback, hnot]
  · simp [pulseCallback, getFlowRate, hnot]
  · simp [pulseCallback, hnot]
  · by_cases h2 : u - fm.last_time < 2 <;> simp [pulseCallback, h2]

theorem C6_stale_witness :
    (pulseCallback (⟨0, [5], 5, 0⟩ : FlowMeter) 3).last_flow_rates = []
    ∧ (getFlowRate (pulseCallback (⟨0, [5], 5, 0⟩ : FlowMeter) 3)).1 = 0
    ∧ (pulseCallback (⟨0, [5], 5, 0⟩ : FlowMeter) 3).last_time = 3
    ∧ (pulseCallback (⟨0, [5], 5, 0⟩ : FlowMeter) 1).last_time = 1 :=
  C6_stale ⟨0, [5], 5, 0⟩ 3 1 (by norm_num) (by norm_num)

/-!
## Water budget
-/

theorem litersPerM2_eq (e s r w d : ℚ) (hd : litersPerM2 e s r w = some d) :
    1 < netEvap e s r w ∧ d = min (netEvap e s r w) MAX_IRRIGATION := by
  unfold litersPerM2 at hd
  split at hd
  · exact absurd hd (by simp)
  · rename_i h1
    push_neg at h1
    split at hd
    · rename_i h2
      injection hd with hd
      exact ⟨h1, by rw [← hd, min_eq_right (le_of_lt h2)]⟩
    · rename_i h2
      push_neg at h2
      injection hd with hd
      exact ⟨h1, by rw [← hd, min_eq_left h2]⟩

/-- Claim C3: whenever a zone is actually watered in deficit mode, the depth
used equals `clamp(evapSum*shadow - rainSum - waterSum, 0, MAX_IRRIGATION)`,
lies in `[0, MAX_IRRIGATION]`, and is monotone: non-decreasing in the
evaporation sum (for non-negative shadow factor) and non-increasing in the
rainfall and already-irrigated sums. -/
theorem C3_net_deficit (e s r w d : ℚ) (hs : 0 ≤ s)
    (hd : litersPerM2 e s r w = some d) :
    (d = max 0 (min (netEvap e s r w) MAX_IRRIGATION) ∧ 0 ≤ d ∧ d ≤ MAX_IRRIGATION)
    ∧ (∀ e1 d1, e ≤ e1 → litersPerM2 e1 s r w = some d1 → d ≤ d1)
    ∧ (∀ r1 d1, r ≤ r1 → litersPerM2 e s r1 w = some d1 → d1 ≤ d)
    ∧ (∀ w1 d1, w ≤ w1 → litersPerM2 e s r w1 = some d1 → d1 ≤ d) := by
  obtain ⟨h1, h2⟩ := litersPerM2_eq e s r w d hd
  have hM : (0 : ℚ) < MAX_IRRIGATION := by norm_num [MAX_IRRIGATION]
  have h0d : 0 ≤ d := by
    rw [h2]; exact le_min (by linarith) (le_of_lt hM)
  refine ⟨⟨?_, h0d, by rw [h2]; exact min_le_right _ _⟩, ?_, ?_, ?_⟩
  · rw [h2, max_eq_right]
    rw [← h2]; exact h0d
  · intro e1 d1 he hd1
    obtain ⟨h1a, h2a⟩ := litersPerM2_eq e1 s r w d1 hd1
    have : netEvap e s r w ≤ netEvap e1 s r w := by
      unfold netEvap; nlinarith
    rw [h2, h2a]; exact min_le_min this le_rfl
  · intro r1 d1 hr hd1
    obtain ⟨h1a, h2a⟩ := litersPerM2_eq e s r1 w d1 hd1
    have : netEvap e s r1 w ≤ netEvap e s r w := by
      unfold netEvap; nlinarith
    rw [h2, h2a]; exact min_le_min this le_rfl
  · intro w1 d1 hw hd1
    obtain ⟨h1a, h2a⟩ := litersPerM2_eq e s r w1 d1 hd1
    have : netEvap e s r w1 ≤ netEvap e s r w := by
      unfold netEvap; nlinarith
    rw [h2, h2a]; exact min_le_min this le_rfl

theorem C3_net_deficit_witness :
    (0 : ℚ) ≤ 4/5 ∧ litersPerM2 12 (4/5) 3 0 = some (33/5) ∧
    ((33/5 : ℚ) = max 0 (min (netEvap 12 (4/5) 3 0) MAX_IRRIGATION)
      ∧ (0 : ℚ) ≤ 33/5 ∧ (33/5 : ℚ) ≤ MAX_IRRIGATION) := by
  have hall : litersPerM2 12 (4/5) 3 0 = some (33/5) := by
    norm_num [litersPerM2, netEvap, MAX_IRRIGATION]
  exact ⟨by norm_num, hall, (C3_net_deficit 12 (4/5) 3 0 (33/5) (by norm_num) hall).1⟩

/-!
## load_evaporation null filtering
-/

/-- Claim C2 (refuted; the code contradicts its own comment): an archive row
with a non-null humidity but a null temperature leaves its humidity value
in `humidityDay` even though the row is "skipped", while the other series
stay empty; only a row whose first field is null is dropped entirely. -/
theorem C2_null_row :
    (load_evaporation [⟨some 88, none, some (10141/10), some 295, some 0⟩]).humidityDay = [88]
    ∧ (load_evaporation [⟨some 88, none, some (10141/10), some 295, some 0⟩]).tempDay = []
    ∧ (load_evaporation [⟨none, some 5, some 1000, some 0, some 0⟩]).humidityDay = []
    ∧ (load_evaporation [⟨none, some 5, some 1000, some 0, some 0⟩]).tempDay = [] :=
  ⟨rfl, rfl, rfl, rfl⟩

/-!
## Irrigation ledger round trip
-/

theorem charsMatchHere_refl : ∀ l : List Char, charsMatchHere l l = true := by
  intro l
  induction l with
  | nil => rfl
  | cons a as ih => simp [charsMatchHere, ih]

theorem charsFound_self (l : List Char) : charsFound l l = true := by
  cases l with
  | nil => rfl
  | cons a as => simp [charsFound, charsMatchHere_refl]

theorem likeMatch_self (s : String) : likeMatch s s = true :=
  charsFound_self _

/-- Claim C9 (amended): a depth appended to the ledger inside a look-back
window is reflected in every subsequent budget query over that window as
the summand `round1 mm` — the stored value rounded to one decimal place,
exactly as stored, not re-derived. -/
theorem C9_round_trip (ledger : List LedgerRow) (zname : String) (mm t cutoff : ℚ)
    (hmm : 0 < mm) (ht : cutoff ≤ t) :
    waterSumOf (save_irrigated ledger zname mm t) zname cutoff
      = waterSumOf ledger zname cutoff + round1 mm := by
  unfold waterSumOf load_irrigated save_irrigated
  rw [if_pos hmm, List.filter_append, List.map_append, List.sum_append]
  congr 1
  simp [List.filter, ht, likeMatch_self]

theorem C9_round_trip_witness :
    waterSumOf (save_irrigated [] "B" (3/10) 5) "B" 0
      = waterSumOf [] "B" 0 + round1 (3/10) :=
  C9_round_trip [] "B" (3/10) 5 0 (by norm_num) (by norm_num)

/-- Claim C9 counterexample: the delivered depth 1.05394 mm (the value shown
in the source's own table example) is NOT reflected with the same numeric
value: `save_irrigated` stores `round(mm, 1)`, so the subsequent sum is
1.1, not 1.05394. -/
theorem C9_rounding_cx :
    waterSumOf (save_irrigated [] "A" (105394/100000) 0) "A" 0 = 11/10
    ∧ ((11/10 : ℚ) ≠ 105394/100000) := by
  constructor
  · norm_num [waterSumOf, save_irrigated, load_irrigated, round1, likeMatch, charsFound,
      charsMatchHere, List.filter, round_eq]
  · norm_num

/-!
## Target-depth threshold
-/

/-- Claim C8 (amended): in deficit mode a zone whose net deficit is at most
1 mm is skipped, and a skipped zone contributes neither a session nor any
effect; in fixed mode the manual depth is used verbatim with no threshold
test at all. -/
theorem C8_threshold (days : ℕ) (amount evapSum shadow rainSum waterSum : ℚ) :
    (0 < days → netEvap evapSum shadow rainSum waterSum ≤ 1 →
      targetDepth days amount evapSum shadow rainSum waterSum = none)
    ∧ (days = 0 → targetDepth days amount evapSum shadow rainSum waterSum = some amount)
    ∧ (∀ (em info : Bool) (nS fuel idx : ℕ) (z : ZoneSpec) (rest : List ZoneSpec),
        z.target = none →
        (runProgram em info nS fuel idx (z :: rest)).1
            = (z.name, .skipped) :: (runProgram em info nS fuel idx rest).1
        ∧ (runProgram em info nS fuel idx (z :: rest)).2
            = (runProgram em info nS fuel idx rest).2) := by
  refine ⟨?_, ?_, ?_⟩
  · intro hd hne
    simp [targetDepth, hd, litersPerM2, hne]
  · intro hd
    subst hd
    rfl
  · intro em info nS fuel idx z rest hz
    constructor <;> simp [runProgram, hz]

theorem C8_threshold_witness :
    targetDepth 1 0 0 0 5 0 = none ∧ targetDepth 0 (7/2) 0 0 0 0 = some (7/2) :=
  ⟨(C8_threshold 1 0 0 0 5 0).1 (by decide) (by norm_num [netEvap]),
   (C8_threshold 0 (7/2) 0 0 0 0).2.1 rfl⟩

/-- Claim C8 counterexample: in fixed mode a target depth of 0.5 mm (at most
the 1 mm threshold) does NOT cause the zone to be skipped: the decision is
`some (1/2)`, and the resulting run actuates valves and writes the ledger. -/
theorem C8_fixed_mode_cx :
    targetDepth 0 (1/2) 0 0 0 0 = some (1/2)
    ∧ ((1/2 : ℚ) ≤ 1)
    ∧ Effect.openZoneValve ∈ (runProgram false false 2 4 0 [zSpec8]).2
    ∧ Effect.ledgerWrite "Z8" (7/2) ∈ (runProgram false false 2 4 0 [zSpec8]).2 := by
  refine ⟨rfl, by norm_num, ?_, ?_⟩ <;>
    norm_num [runProgram, runN, runStep, monStep, sessionInit, zSpec8, zoneCfg, tickSix,
      targetDepth, primeEffects, stopEffects, completeEffects, saveIrr, MAX_IRRIGATION,
      round1, round_eq]

/-!
## Source switching
-/

/-- Claim C4: in a monitoring iteration (no interruption), the controller
takes the switching branch exactly when the current sample and the
immediately preceding sample are both below `flow_required` (otherwise the
source index is unchanged); after a successful switch the remaining
duration is `(liters - actual) / max(new_rate, 1) * 60`, computed from the
still-outstanding volume only. -/
theorem C4_switching (cfg : SessionCfg) (s : MonState) (tk : Tick)
    (hni : tk.interrupt = false) (hnsi : tk.switchInterrupt = false) :
    ((tk.rate < cfg.flow_required ∧ s.prevRate < cfg.flow_required) →
      s.sourceIdx < cfg.numSources - 1 →
      monStep cfg s tk =
        .cont ⟨s.sourceIdx + 1, s.actual,
               (cfg.liters - s.actual) / max tk.switchRate 1 * 60, tk.switchRate⟩
          ((if cfg.emulating then [] else [.closeSourceValve s.sourceIdx]) ++
           (if cfg.emulating then [] else [.openSourceValve (s.sourceIdx + 1)])))
    ∧ (¬(tk.rate < cfg.flow_required ∧ s.prevRate < cfg.flow_required) →
      monStep cfg s tk =
        .cont ⟨s.sourceIdx, s.actual + tk.secs / 60 * tk.rate,
               (cfg.liters - (s.actual + tk.secs / 60 * tk.rate)) / max tk.rate 1 * 60,
               tk.rate⟩ []) := by
  constructor
  · intro hlow hadv
    simp [monStep, hni, hlow, hadv, hnsi]
  · intro hlow
    simp [monStep, hni, hlow]

theorem C4_switching_witness :
    monStep ⟨false, "Z", 1, 100, 5, 2⟩ ⟨0, 20, 480, 2⟩ ⟨false, 60, 2, false, 10⟩
      = .cont ⟨1, 20, (100 - 20) / max 10 1 * 60, 10⟩
          [.closeSourceValve 0, .openSourceValve 1] :=
  (C4_switching ⟨false, "Z", 1, 100, 5, 2⟩ ⟨0, 20, 480, 2⟩ ⟨false, 60, 2, false, 10⟩
    rfl rfl).1 ⟨by norm_num, by norm_num⟩ (by decide)

/-!
## Dry-run purity
-/

theorem stopEffects_emul (cfg : SessionCfg) (idx : ℕ) (a : ℚ)
    (h : cfg.emulating = true) : stopEffects cfg idx a = [] := by
  simp [stopEffects, h]

theorem completeEffects_emul (cfg : SessionCfg) (idx : ℕ) (a : ℚ)
    (h : cfg.emulating = true) : completeEffects cfg idx a = [] := by
  simp [completeEffects, h]

theorem primeEffects_emul (cfg : SessionCfg) (idx : ℕ)
    (h : cfg.emulating = true) : primeEffects cfg idx = [] := by
  simp [primeEffects, h]

theorem monStep_eff_emul (cfg : SessionCfg) (s : MonState) (tk : Tick)
    (h : cfg.emulating = true) : effOf (monStep cfg s tk) = [] := by
  unfold monStep
  split
  · simp [effOf, stopEffects, h]
  · split
    · split
      · split
        · simp [effOf, stopEffects, h]
        · simp [effOf, h]
      · simp [effOf, h]
    · simp [effOf]

theorem runN_eff_emul (cfg : SessionCfg) (inputs : ℕ → Tick) (init : StepRes)
    (h : cfg.emulating = true) (h0 : effOf init = []) :
    ∀ n, effOf (runN cfg inputs init n) = [] := by
  intro n
  induction n with
  | zero => exact h0
  | succ n ih =>
    show effOf (runStep cfg (runN cfg inputs init n) (inputs n)) = []
    rcases hr : runN cfg inputs init n with ⟨s, e⟩ | ⟨o, i, e⟩
    · have he : e = [] := by rw [hr] at ih; exact ih
      subst he
      by_cases hdur : 0 < s.duration
      · have hm := monStep_eff_emul cfg s (inputs n) h
        rcases hmr : monStep cfg s (inputs n) with ⟨s1, e1⟩ | ⟨o1, i1, e1⟩ <;>
          rw [hmr] at hm <;> simp only [effOf] at hm <;>
          simp [runStep, hdur, hmr, effOf, hm]
      · simp [runStep, hdur, effOf, completeEffects, h]
    · have he : e = [] := by rw [hr] at ih; exact ih
      subst he
      simp [runStep, effOf]

theorem sessionInit_eff_emul (cfg : SessionCfg) (idx : ℕ) (p : Priming)
    (h : cfg.emulating = true) : effOf (sessionInit cfg idx p) = [] := by
  unfold sessionInit
  split <;> simp [effOf, primeEffects, stopEffects, h]

theorem runProgram_eff_emul (info : Bool) (nS fuel : ℕ) :
    ∀ (zs : List ZoneSpec) (idx : ℕ), (runProgram true info nS fuel idx zs).2 = [] := by
  intro zs
  induction zs with
  | nil => intro idx; rfl
  | cons z rest ih =>
    intro idx
    rcases hz : z.target with _ | lpm
    · simp only [runProgram, hz]
      exact ih idx
    · simp only [runProgram, hz]
      by_cases hinfo : info = true
      · subst hinfo
        simp [ih]
      · have hif : info = false := by
          cases info
          · rfl
          · exact absurd rfl hinfo
        subst hif
        simp only [Bool.false_eq_true, if_false]
        have heff := runN_eff_emul (zoneCfg true nS z lpm) z.ticks
          (sessionInit (zoneCfg true nS z lpm) idx z.prime) rfl
          (sessionInit_eff_emul _ idx z.prime rfl) fuel
        rcases hr : runN (zoneCfg true nS z lpm) z.ticks
            (sessionInit (zoneCfg true nS z lpm) idx z.prime) fuel with ⟨s, e⟩ | ⟨o, i, e⟩
        · rw [hr] at heff
          simp only [effOf] at heff
          simp [hr, heff]
        · rw [hr] at heff
          simp only [effOf] at heff
          rcases o with _ | _ | _ <;> simp [hr, heff, ih]

/-- Claim C10: in emulate mode or info mode the run performs no physical
side effect: the effect trace (which records every valve GPIO write and
every ledger insert) is empty for every zone list, every environment and
every exit path. -/
theorem C10_dry_run (emulateFlag infoFlag : Bool)
    (h : emulateFlag = true ∨ infoFlag = true)
    (nS fuel idx : ℕ) (zs : List ZoneSpec) :
    (mainRun emulateFlag infoFlag nS fuel idx zs).2 = [] := by
  have he : effectiveEmulating emulateFlag infoFlag = true := by
    rcases h with h | h <;> simp [effectiveEmulating, h]
  unfold mainRun
  rw [he]
  exact runProgram_eff_emul infoFlag nS fuel zs idx

theorem C10_dry_run_witness :
    (mainRun true false 2 4 0 [zSpec1, zSpec2]).2 = [] :=
  C10_dry_run true false (Or.inl rfl) 2 4 0 [zSpec1, zSpec2]

/-!
## Session termination
-/

theorem max_one_pos (r : ℚ) : 0 < max r 1 :=
  lt_of_lt_of_le one_pos (le_max_right r 1)

theorem dur_pos_iff {x m : ℚ} (hm : 0 < m) : 0 < x / m * 60 ↔ 0 < x := by
  rw [show x / m * 60 = 60 * x / m from by ring, lt_div_iff hm]
  constructor <;> intro h <;> nlinarith

/-- Any state the loop body produces has `0 < duration` only when the target
volume has not been delivered. -/
theorem goodMk (cfg : SessionCfg) (i : ℕ) (a r : ℚ) :
    goodState cfg ⟨i, a, (cfg.liters - a) / max r 1 * 60, r⟩ := by
  intro hdur
  have hx := (dur_pos_iff (max_one_pos r)).mp hdur
  simpa using by linarith

theorem monStep_int_eq (cfg : SessionCfg) (s : MonState) (tk : Tick)
    (h : tk.interrupt = true) :
    monStep cfg s tk = .done .interrupted s.sourceIdx
      (stopEffects cfg s.sourceIdx s.actual) := by
  simp [monStep, h]

theorem monStep_switch_eq (cfg : SessionCfg) (s : MonState) (tk : Tick)
    (h1 : tk.interrupt = false) (h2 : tk.rate < cfg.flow_required)
    (h3 : s.prevRate < cfg.flow_required) (h4 : s.sourceIdx < cfg.numSources - 1)
    (h5 : tk.switchInterrupt = false) :
    monStep cfg s tk = .cont ⟨s.sourceIdx + 1, s.actual,
        (cfg.liters - s.actual) / max tk.switchRate 1 * 60, tk.switchRate⟩
      ((if cfg.emulating then [] else [.closeSourceValve s.sourceIdx]) ++
       (if cfg.emulating then [] else [.openSourceValve (s.sourceIdx + 1)])) := by
  simp [monStep, h1, h2, h3, h4, h5]

theorem monStep_switch_int_eq (cfg : SessionCfg) (s : MonState) (tk : Tick)
    (h1 : tk.interrupt = false) (h2 : tk.rate < cfg.flow_required)
    (h3 : s.prevRate < cfg.flow_required) (h4 : s.sourceIdx < cfg.numSources - 1)
    (h5 : tk.switchInterrupt = true) :
    monStep cfg s tk = .done .interrupted (s.sourceIdx + 1)
      ((if cfg.emulating then [] else [.closeSourceValve s.sourceIdx]) ++
       (if cfg.emulating then [] else [.openSourceValve (s.sourceIdx + 1)]) ++
       stopEffects cfg (s.sourceIdx + 1) s.actual) := by
  simp [monStep, h1, h2, h3, h4, h5]

theorem monStep_exhaust_eq (cfg : SessionCfg) (s : MonState) (tk : Tick)
    (h1 : tk.interrupt = false) (h2 : tk.rate < cfg.flow_required)
    (h3 : s.prevRate < cfg.flow_required) (h4 : ¬ s.sourceIdx < cfg.numSources - 1) :
    monStep cfg s tk = .done .failed s.sourceIdx
      ((if cfg.emulating then [] else [.closeSourceValve s.sourceIdx]) ++
       (if cfg.emulating then [] else
          [.closeZoneValve] ++ saveIrr cfg.name (s.actual / cfg.area))) := by
  simp [monStep, h1, h2, h3, h4]

theorem monStep_else_eq (cfg : SessionCfg) (s : MonState) (tk : Tick)
    (h1 : tk.interrupt = false)
    (h2 : ¬(tk.rate < cfg.flow_required ∧ s.prevRate < cfg.flow_required)) :
    monStep cfg s tk = .cont ⟨s.sourceIdx, s.actual + tk.secs / 60 * tk.rate,
        (cfg.liters - (s.actual + tk.secs / 60 * tk.rate)) / max tk.rate 1 * 60,
        tk.rate⟩ [] := by
  simp [monStep, h1, h2]

theorem monStep_good (cfg : SessionCfg) (s : MonState) (tk : Tick) (s1 : MonState)
    (e1 : List Effect) (h : monStep cfg s tk = .cont s1 e1) : goodState cfg s1 := by
  unfold monStep at h
  split at h
  · exact absurd h (by simp)
  · split at h
    · split at h
      · split at h
        · exact absurd h (by simp)
        · injection h with hs he
          rw [← hs]
          exact goodMk cfg _ _ _
      · exact absurd h (by simp)
    · injection h with hs he
      rw [← hs]
      exact goodMk cfg _ _ _

theorem runStep_fin (cfg : SessionCfg) (s : MonState) (e : List Effect) (tk : Tick)
    (hdur : ¬ 0 < s.duration) :
    runStep cfg (.cont s e) tk
      = .done .complete s.sourceIdx (e ++ completeEffects cfg s.sourceIdx s.actual) := by
  simp [runStep, hdur]

theorem runStep_live_cont (cfg : SessionCfg) (s : MonState) (e : List Effect) (tk : Tick)
    (hdur : 0 < s.duration) {s1 : MonState} {e1 : List Effect}
    (hm : monStep cfg s tk = .cont s1 e1) :
    runStep cfg (.cont s e) tk = .cont s1 (e ++ e1) := by
  simp [runStep, hdur, hm]

theorem runStep_live_done (cfg : SessionCfg) (s : MonState) (e : List Effect) (tk : Tick)
    (hdur : 0 < s.duration) {o : Outcome} {i : ℕ} {e1 : List Effect}
    (hm : monStep cfg s tk = .done o i e1) :
    runStep cfg (.cont s e) tk = .done o i (e ++ e1) := by
  simp [runStep, hdur, hm]

theorem runN_one (cfg : SessionCfg) (inputs : ℕ → Tick) (init : StepRes) :
    runN cfg inputs init 1 = runStep cfg init (inputs 0) := rfl

theorem runN_two (cfg : SessionCfg) (inputs : ℕ → Tick) (init : StepRes) :
    runN cfg inputs init 2 = runStep cfg (runStep cfg init (inputs 0)) (inputs 1) := rfl

theorem runN_add (cfg : SessionCfg) (inputs : ℕ → Tick) (init : StepRes) (k : ℕ) :
    ∀ n, runN cfg inputs init (k + n)
      = runN cfg (fun i => inputs (k + i)) (runN cfg inputs init k) n := by
  intro n
  induction n with
  | zero => rfl
  | succ n ih =>
    show runStep cfg (runN cfg inputs init (k + n)) (inputs (k + n)) = _
    rw [ih]
    rfl

theorem runN_done_stable (cfg : SessionCfg) (inputs : ℕ → Tick) (o : Outcome) (i : ℕ)
    (e : List Effect) : ∀ n, runN cfg inputs (.done o i e) n = .done o i e := by
  intro n
  induction n with
  | zero => rfl
  | succ n ih =>
    show runStep cfg (runN cfg inputs (.done o i e) n) (inputs n) = _
    rw [ih]
    rfl

theorem runN_unique (cfg : SessionCfg) (inputs : ℕ → Tick) (init : StepRes) (n m : ℕ)
    (o o1 : Outcome) (i i1 : ℕ) (e e1 : List Effect)
    (h1 : runN cfg inputs init n = .done o i e)
    (h2 : runN cfg inputs init m = .done o1 i1 e1) : o = o1 ∧ i = i1 ∧ e = e1 := by
  rcases le_total n m with h | h
  · obtain ⟨k, rfl⟩ := Nat.exists_eq_add_of_le h
    rw [runN_add cfg inputs init n k, h1, runN_done_stable] at h2
    injection h2 with ho hi he
    exact ⟨ho, hi, he⟩
  · obtain ⟨k, rfl⟩ := Nat.exists_eq_add_of_le h
    rw [runN_add cfg inputs init m k, h2, runN_done_stable] at h1
    injection h1 with ho hi he
    exact ⟨ho.symm, hi.symm, he.symm⟩

theorem validShift (inputs : ℕ → Tick) (k : ℕ) (h : ValidInputs inputs) :
    ValidInputs fun i => inputs (k + i) := fun n => h (k + n)

theorem ceil_dec {l a a1 d : ℚ} (hd : 0 < d) (ha : a < l) (hstep : a + d ≤ a1) :
    ⌈(l - a1) / d⌉₊ < ⌈(l - a) / d⌉₊ := by
  have hx : 0 < (l - a) / d := div_pos (by linarith) hd
  have hy : (l - a1) / d ≤ (l - a) / d - 1 := by
    have h2 : (l - a1) / d ≤ ((l - a) - d) / d :=
      (div_le_div_right hd).mpr (by linarith)
    have h3 : ((l - a) - d) / d = (l - a) / d - 1 := by
      rw [sub_div, div_self hd.ne']
    linarith
  refine Nat.lt_ceil.mpr ?_
  rcases le_or_lt ((l - a1) / d) 0 with h0 | h0
  · rw [Nat.ceil_eq_zero.mpr h0]
    push_cast
    exact hx
  · have hc := Nat.ceil_lt_add_one h0.le
    linarith

theorem meas_switch_lt (cfg : SessionCfg) (i : ℕ) (a d r d1 r1 : ℚ)
    (h : i < cfg.numSources - 1) :
    meas cfg ⟨i + 1, a, d1, r1⟩ < meas cfg ⟨i, a, d, r⟩ := by
  show (cfg.numSources - 1 - (i + 1)) + ⌈(cfg.liters - a) / stepDelta cfg⌉₊
    < (cfg.numSources - 1 - i) + ⌈(cfg.liters - a) / stepDelta cfg⌉₊
  omega

theorem meas_actual_le (cfg : SessionCfg) (i : ℕ) (a a1 d d1 r r1 : ℚ)
    (hd : 0 < stepDelta cfg) (h : a ≤ a1) :
    meas cfg ⟨i, a1, d1, r1⟩ ≤ meas cfg ⟨i, a, d, r⟩ := by
  show (cfg.numSources - 1 - i) + ⌈(cfg.liters - a1) / stepDelta cfg⌉₊
    ≤ (cfg.numSources - 1 - i) + ⌈(cfg.liters - a) / stepDelta cfg⌉₊
  have hc : ⌈(cfg.liters - a1) / stepDelta cfg⌉₊ ≤ ⌈(cfg.liters - a) / stepDelta cfg⌉₊ :=
    Nat.ceil_mono ((div_le_div_right hd).mpr (by linarith))
  omega

theorem meas_progress_lt (cfg : SessionCfg) (i : ℕ) (a a1 d d1 r r1 : ℚ)
    (hd : 0 < stepDelta cfg) (ha : a < cfg.liters) (hstep : a + stepDelta cfg ≤ a1) :
    meas cfg ⟨i, a1, d1, r1⟩ < meas cfg ⟨i, a, d, r⟩ := by
  show (cfg.numSources - 1 - i) + ⌈(cfg.liters - a1) / stepDelta cfg⌉₊
    < (cfg.numSources - 1 - i) + ⌈(cfg.liters - a) / stepDelta cfg⌉₊
  have hc := ceil_dec hd ha hstep
  omega

theorem else_actual_ge (a secs rate : ℚ) (hs : 5 ≤ secs) (hr : 0 ≤ rate) :
    a ≤ a + secs / 60 * rate := by
  nlinarith

theorem else_actual_progress (cfg : SessionCfg) (a secs rate : ℚ)
    (hreq : 0 < cfg.flow_required) (hs : 5 ≤ secs) (hr : cfg.flow_required ≤ rate) :
    a + stepDelta cfg ≤ a + secs / 60 * rate := by
  unfold stepDelta
  nlinarith [mul_nonneg (by linarith : (0:ℚ) ≤ secs - 5) (by linarith : (0:ℚ) ≤ rate)]

/-- Induction on the termination measure: from a good loop state the session
ends within finitely many iterations. -/
theorem session_term_aux (cfg : SessionCfg) (hreq : 0 < cfg.flow_required) :
    ∀ k : ℕ, ∀ inputs : ℕ → Tick, ValidInputs inputs →
      ∀ s : MonState, ∀ e : List Effect, goodState cfg s → meas cfg s ≤ k →
        ∃ n o i e1, runN cfg inputs (.cont s e) n = .done o i e1 := by
  have hdelta : 0 < stepDelta cfg := by
    unfold stepDelta
    positivity
  intro k
  induction k with
  | zero =>
    intro inputs hval s e hgood hm
    by_cases hdur : 0 < s.duration
    · exfalso
      have ha : s.actual < cfg.liters := hgood hdur
      have hx : 0 < (cfg.liters - s.actual) / stepDelta cfg := div_pos (by linarith) hdelta
      have h1 : 0 < ⌈(cfg.liters - s.actual) / stepDelta cfg⌉₊ := Nat.ceil_pos.mpr hx
      have h2 : 0 < meas cfg s := by
        unfold meas
        omega
      omega
    · exact ⟨1, .complete, s.sourceIdx, e ++ completeEffects cfg s.sourceIdx s.actual,
        by rw [runN_one, runStep_fin cfg s e (inputs 0) hdur]⟩
  | succ k ih =>
    intro inputs hval s e hgood hm
    by_cases hdur : 0 < s.duration
    case neg =>
      exact ⟨1, .complete, s.sourceIdx, e ++ completeEffects cfg s.sourceIdx s.actual,
        by rw [runN_one, runStep_fin cfg s e (inputs 0) hdur]⟩
    case pos =>
    have ha : s.actual < cfg.liters := hgood hdur
    by_cases hi0 : (inputs 0).interrupt = true
    · exact ⟨1, .interrupted, s.sourceIdx, e ++ stopEffects cfg s.sourceIdx s.actual,
        by rw [runN_one, runStep_live_done cfg s e (inputs 0) hdur
          (monStep_int_eq cfg s (inputs 0) hi0)]⟩
    · have hi0f : (inputs 0).interrupt = false := by
        cases hx : (inputs 0).interrupt
        · rfl
        · exact absurd hx hi0
      by_cases hlow : (inputs 0).rate < cfg.flow_required ∧ s.prevRate < cfg.flow_required
      · by_cases hadv : s.sourceIdx < cfg.numSources - 1
        · by_cases hsw : (inputs 0).switchInterrupt = true
          · exact ⟨1, _, _, _, by
              rw [runN_one]
              exact runStep_live_done cfg s e (inputs 0) hdur
                (monStep_switch_int_eq cfg s (inputs 0) hi0f hlow.1 hlow.2 hadv hsw)⟩
          · have hswf : (inputs 0).switchInterrupt = false := by
              cases hx : (inputs 0).switchInterrupt
              · rfl
              · exact absurd hx hsw
            have hm1 := monStep_switch_eq cfg s (inputs 0) hi0f hlow.1 hlow.2 hadv hswf
            have hgood1 : goodState cfg
                ⟨s.sourceIdx + 1, s.actual,
                 (cfg.liters - s.actual) / max (inputs 0).switchRate 1 * 60,
                 (inputs 0).switchRate⟩ := goodMk cfg _ _ _
            have hmlt := meas_switch_lt cfg s.sourceIdx s.actual s.duration s.prevRate
              ((cfg.liters - s.actual) / max (inputs 0).switchRate 1 * 60)
              (inputs 0).switchRate hadv
            obtain ⟨n, o, i2, e2, hr⟩ := ih (fun j => inputs (1 + j))
              (validShift inputs 1 hval) _ _ hgood1
              (by
                have hms : meas cfg ⟨s.sourceIdx, s.actual, s.duration, s.prevRate⟩
                    = meas cfg s := rfl
                omega)
            refine ⟨1 + n, o, i2, e2, ?_⟩
            rw [runN_add cfg inputs _ 1 n, runN_one,
              runStep_live_cont cfg s e (inputs 0) hdur hm1]
            exact hr
        · exact ⟨1, _, _, _, by
            rw [runN_one]
            exact runStep_live_done cfg s e (inputs 0) hdur
              (monStep_exhaust_eq cfg s (inputs 0) hi0f hlow.1 hlow.2 hadv)⟩
      · have hm1 := monStep_else_eq cfg s (inputs 0) hi0f hlow
        have hgood1 : goodState cfg
            ⟨s.sourceIdx, s.actual + (inputs 0).secs / 60 * (inputs 0).rate,
             (cfg.liters - (s.actual + (inputs 0).secs / 60 * (inputs 0).rate))
               / max (inputs 0).rate 1 * 60, (inputs 0).rate⟩ := goodMk cfg _ _ _
        have haa1 : s.actual ≤ s.actual + (inputs 0).secs / 60 * (inputs 0).rate :=
          else_actual_ge _ _ _ (hval 0).1 (hval 0).2
        by_cases hr0 : cfg.flow_required ≤ (inputs 0).rate
        · have hprog : s.actual + stepDelta cfg
              ≤ s.actual + (inputs 0).secs / 60 * (inputs 0).rate :=
            else_actual_progress cfg s.actual _ _ hreq (hval 0).1 hr0
          have hmlt := meas_progress_lt cfg s.sourceIdx s.actual
            (s.actual + (inputs 0).secs / 60 * (inputs 0).rate) s.duration
            ((cfg.liters - (s.actual + (inputs 0).secs / 60 * (inputs 0).rate))
              / max (inputs 0).rate 1 * 60) s.prevRate (inputs 0).rate
            hdelta ha hprog
          obtain ⟨n, o, i2, e2, hr⟩ := ih (fun j => inputs (1 + j))
            (validShift inputs 1 hval) _ _ hgood1
            (by
              have hms : meas cfg ⟨s.sourceIdx, s.actual, s.duration, s.prevRate⟩
                  = meas cfg s := rfl
              omega)
          refine ⟨1 + n, o, i2, e2, ?_⟩
          rw [runN_add cfg inputs _ 1 n, runN_one,
            runStep_live_cont cfg s e (inputs 0) hdur hm1]
          exact hr
        · by_cases hdur1 : 0 < ((cfg.liters
              - (s.actual + (inputs 0).secs / 60 * (inputs 0).rate))
              / max (inputs 0).rate 1 * 60)
          case neg =>
            exact ⟨2, _, _, _, by
              rw [runN_two, runStep_live_cont cfg s e (inputs 0) hdur hm1]
              exact runStep_fin cfg _ _ (inputs 1) hdur1⟩
          case pos =>
          have ha1lt : s.actual + (inputs 0).secs / 60 * (inputs 0).rate < cfg.liters :=
            hgood1 hdur1
          by_cases hi1 : (inputs 1).interrupt = true
          · exact ⟨2, _, _, _, by
              rw [runN_two, runStep_live_cont cfg s e (inputs 0) hdur hm1]
              exact runStep_live_done cfg _ _ (inputs 1) hdur1
                (monStep_int_eq cfg _ (inputs 1) hi1)⟩
          · have hi1f : (inputs 1).interrupt = false := by
              cases hx : (inputs 1).interrupt
              · rfl
              · exact absurd hx hi1
            have hprev1 : (inputs 0).rate < cfg.flow_required := not_le.mp hr0
            by_cases hr1 : (inputs 1).rate < cfg.flow_required
            · by_cases hadv1 : s.sourceIdx < cfg.numSources - 1
              · by_cases hsw1 : (inputs 1).switchInterrupt = true
                · exact ⟨2, _, _, _, by
                    rw [runN_two, runStep_live_cont cfg s e (inputs 0) hdur hm1]
                    exact runStep_live_done cfg _ _ (inputs 1) hdur1
                      (monStep_switch_int_eq cfg _ (inputs 1) hi1f hr1 hprev1 hadv1 hsw1)⟩
                · have hsw1f : (inputs 1).switchInterrupt = false := by
                    cases hx : (inputs 1).switchInterrupt
                    · rfl
                    · exact absurd hx hsw1
                  have hm2 := monStep_switch_eq cfg
                    ⟨s.sourceIdx, s.actual + (inputs 0).secs / 60 * (inputs 0).rate,
                     (cfg.liters - (s.actual + (inputs 0).secs / 60 * (inputs 0).rate))
                       / max (inputs 0).rate 1 * 60, (inputs 0).rate⟩
                    (inputs 1) hi1f hr1 hprev1 hadv1 hsw1f
                  have hgood2 : goodState cfg
                      ⟨s.sourceIdx + 1, s.actual + (inputs 0).secs / 60 * (inputs 0).rate,
                       (cfg.liters - (s.actual + (inputs 0).secs / 60 * (inputs 0).rate))
                         / max (inputs 1).switchRate 1 * 60,
                       (inputs 1).switchRate⟩ := goodMk cfg _ _ _
                  have hstep1 := meas_actual_le cfg s.sourceIdx s.actual
                    (s.actual + (inputs 0).secs / 60 * (inputs 0).rate) s.duration 0
                    s.prevRate 0 hdelta haa1
                  have hstep2 := meas_switch_lt cfg s.sourceIdx
                    (s.actual + (inputs 0).secs / 60 * (inputs 0).rate) 0 0
                    ((cfg.liters - (s.actual + (inputs 0).secs / 60 * (inputs 0).rate))
                      / max (inputs 1).switchRate 1 * 60) (inputs 1).switchRate hadv1
                  obtain ⟨n, o, i2, e2, hr⟩ := ih (fun j => inputs (2 + j))
                    (validShift inputs 2 hval) _ _ hgood2
                    (by
                      have hms : meas cfg ⟨s.sourceIdx, s.actual, s.duration, s.prevRate⟩
                          = meas cfg s := rfl
                      omega)
                  refine ⟨2 + n, o, i2, e2, ?_⟩
                  rw [runN_add cfg inputs _ 2 n, runN_two,
                    runStep_live_cont cfg s e (inputs 0) hdur hm1,
                    runStep_live_cont cfg _ _ (inputs 1) hdur1 hm2]
                  exact hr
              · exact ⟨2, _, _, _, by
                  rw [runN_two, runStep_live_cont cfg s e (inputs 0) hdur hm1]
                  exact runStep_live_done cfg _ _ (inputs 1) hdur1
                    (monStep_exhaust_eq cfg _ (inputs 1) hi1f hr1 hprev1 hadv1)⟩
            · have hnlow1 : ¬((inputs 1).rate < cfg.flow_required
                  ∧ ((inputs 0)).rate < cfg.flow_required) := fun hc => hr1 hc.1
              have hm2 := monStep_else_eq cfg
                ⟨s.sourceIdx, s.actual + (inputs 0).secs / 60 * (inputs 0).rate,
                 (cfg.liters - (s.actual + (inputs 0).secs / 60 * (inputs 0).rate))
                   / max (inputs 0).rate 1 * 60, (inputs 0).rate⟩
                (inputs 1) hi1f hnlow1
              have hgood2 : goodState cfg
                  ⟨s.sourceIdx,
                   s.actual + (inputs 0).secs / 60 * (inputs 0).rate
                     + (inputs 1).secs / 60 * (inputs 1).rate,
                   (cfg.liters - (s.actual + (inputs 0).secs / 60 * (inputs 0).rate
                     + (inputs 1).secs / 60 * (inputs 1).rate))
                     / max (inputs 1).rate 1 * 60, (inputs 1).rate⟩ := goodMk cfg _ _ _
              have hr1' : cfg.flow_required ≤ (inputs 1).rate := not_lt.mp hr1
              have hprog2 : (s.actual + (inputs 0).secs / 60 * (inputs 0).rate)
                  + stepDelta cfg
                  ≤ (s.actual + (inputs 0).secs / 60 * (inputs 0).rate)
                    + (inputs 1).secs / 60 * (inputs 1).rate :=
                else_actual_progress cfg _ _ _ hreq (hval 1).1 hr1'
              have hprogall : s.actual + stepDelta cfg
                  ≤ s.actual + (inputs 0).secs / 60 * (inputs 0).rate
                    + (inputs 1).secs / 60 * (inputs 1).rate := by linarith
              have hmlt := meas_progress_lt cfg s.sourceIdx s.actual
                (s.actual + (inputs 0).secs / 60 * (inputs 0).rate
                  + (inputs 1).secs / 60 * (inputs 1).rate) s.duration
                ((cfg.liters - (s.actual + (inputs 0).secs / 60 * (inputs 0).rate
                  + (inputs 1).secs / 60 * (inputs 1).rate))
                  / max (inputs 1).rate 1 * 60) s.prevRate (inputs 1).rate
                hdelta ha hprogall
              obtain ⟨n, o, i2, e2, hr⟩ := ih (fun j => inputs (2 + j))
                (validShift inputs 2 hval) _ _ hgood2
                (by
                  have hms : meas cfg ⟨s.sourceIdx, s.actual, s.duration, s.prevRate⟩
                      = meas cfg s := rfl
                  omega)
              refine ⟨2 + n, o, i2, e2, ?_⟩
              rw [runN_add cfg inputs _ 2 n, runN_two,
                runStep_live_cont cfg s e (inputs 0) hdur hm1,
                runStep_live_cont cfg _ _ (inputs 1) hdur1 hm2]
              exact hr

/-- From any running state of the loop, the session terminates. -/
theorem session_term_start (cfg : SessionCfg) (hreq : 0 < cfg.flow_required)
    (inputs : ℕ → Tick) (hval : ValidInputs inputs) (s : MonState) (e : List Effect) :
    ∃ n o i e1, runN cfg inputs (.cont s e) n = .done o i e1 := by
  by_cases hdur : 0 < s.duration
  · rcases hms : monStep cfg s (inputs 0) with ⟨s1, e1⟩ | ⟨o, i, e1⟩
    · have hgood1 := monStep_good cfg s (inputs 0) s1 e1 hms
      obtain ⟨n, o, i, e2, hr⟩ := session_term_aux cfg hreq (meas cfg s1)
        (fun j => inputs (1 + j)) (validShift inputs 1 hval) s1 (e ++ e1) hgood1 le_rfl
      refine ⟨1 + n, o, i, e2, ?_⟩
      rw [runN_add cfg inputs _ 1 n, runN_one,
        runStep_live_cont cfg s e (inputs 0) hdur hms]
      exact hr
    · exact ⟨1, o, i, e ++ e1,
        by rw [runN_one, runStep_live_done cfg s e (inputs 0) hdur hms]⟩
  · exact ⟨1, .complete, s.sourceIdx, e ++ completeEffects cfg s.sourceIdx s.actual,
      by rw [runN_one, runStep_fin cfg s e (inputs 0) hdur]⟩

/-- Claim C7: every zone delivery session terminates for every physically
valid environment (poll intervals of at least 5 s, non-negative flow
samples, positive required flow as in every configured zone): the
step-indexed run reaches a terminal result after finitely many iterations,
the outcome is exactly one of complete, failed or interrupted, and it is
unique (every index at which the run is terminal shows the same outcome). -/
theorem C7_terminates (cfg : SessionCfg) (inputs : ℕ → Tick) (idx : ℕ) (p : Priming)
    (hreq : 0 < cfg.flow_required) (hval : ValidInputs inputs) :
    ∃ n o i e, runN cfg inputs (sessionInit cfg idx p) n = .done o i e ∧
      (o = .complete ∨ o = .failed ∨ o = .interrupted) ∧
      ∀ m o1 i1 e1, runN cfg inputs (sessionInit cfg idx p) m = .done o1 i1 e1
        → o1 = o := by
  rcases hini : sessionInit cfg idx p with ⟨s0, e0⟩ | ⟨o0, i0, e0⟩
  · obtain ⟨n, o, i, e, hr⟩ := session_term_start cfg hreq inputs hval s0 e0
    refine ⟨n, o, i, e, hr, by cases o <;> simp, ?_⟩
    intro m o1 i1 e1 h1
    exact (runN_unique cfg inputs (.cont s0 e0) m n o1 o i1 i e1 e h1 hr).1
  · refine ⟨0, o0, i0, e0, rfl, by cases o0 <;> simp, ?_⟩
    intro m o1 i1 e1 h1
    exact (runN_unique cfg inputs (.done o0 i0 e0) m 0 o1 o0 i1 i0 e1 e0 h1 rfl).1

theorem C7_terminates_witness :
    (0 : ℚ) < cfg7.flow_required ∧ ValidInputs ticks7 ∧
    (∃ n o i e, runN cfg7 ticks7 (sessionInit cfg7 0 ⟨false, 10⟩) n = .done o i e ∧
      (o = .complete ∨ o = .failed ∨ o = .interrupted) ∧
      ∀ m o1 i1 e1, runN cfg7 ticks7 (sessionInit cfg7 0 ⟨false, 10⟩) m = .done o1 i1 e1
        → o1 = o) := by
  have h1 : (0 : ℚ) < cfg7.flow_required := by norm_num [cfg7]
  have h2 : ValidInputs ticks7 := fun n => ⟨by norm_num [ticks7], by norm_num [ticks7]⟩
  exact ⟨h1, h2, C7_terminates cfg7 ticks7 0 ⟨false, 10⟩ h1 h2⟩

/-!
## Source exhaustion scope
-/

/-- Claim C1 counterexample: with two configured zones, the first zone's
session exhausts both sources; the partial delivered depth (0.5 mm) is
persisted, but the run does NOT continue with the next configured zone:
the program exits, the results list contains only the first zone and no
entry for "Z2". -/
theorem C1_exhaustion_cx :
    (runProgram false false 2 4 0 [zSpec1, zSpec2]).1 = [("Z1", .failed)]
    ∧ (((runProgram false false 2 4 0 [zSpec1, zSpec2]).1.map Prod.fst).contains "Z2"
        = false)
    ∧ Effect.ledgerWrite "Z1" (1/2) ∈ (runProgram false false 2 4 0 [zSpec1, zSpec2]).2 := by
  have h1 : (runProgram false false 2 4 0 [zSpec1, zSpec2]).1 = [("Z1", .failed)] := by
    norm_num [runProgram, runN, runStep, monStep, sessionInit, zSpec1, zSpec2, zoneCfg,
      tickZero, primeEffects, stopEffects, completeEffects, saveIrr, MAX_IRRIGATION]
  refine ⟨h1, by rw [h1]; rfl, ?_⟩
  norm_num [runProgram, runN, runStep, monStep, sessionInit, zSpec1, zSpec2, zoneCfg,
    tickZero, primeEffects, stopEffects, completeEffects, saveIrr, MAX_IRRIGATION,
    round1, round_eq]

/-- Claim C1 (amended): when the flow stays below the zone's minimum and no
further source exists, the session ends `failed` after closing the source
and zone valves and persisting the partial delivered depth (rounded to one
decimal, whenever it is positive and the run is not emulating); the program
then exits with an error, so the remaining configured zones are not
processed (the run does not continue with the next zone). -/
theorem C1_exhaustion (cfg : SessionCfg) (s : MonState) (tk : Tick)
    (hem : cfg.emulating = false) (hint : tk.interrupt = false)
    (hlow : tk.rate < cfg.flow_required) (hprev : s.prevRate < cfg.flow_required)
    (hlast : ¬ s.sourceIdx < cfg.numSources - 1) (hpos : 0 < s.actual / cfg.area) :
    monStep cfg s tk = .done .failed s.sourceIdx
      [.closeSourceValve s.sourceIdx, .closeZoneValve,
       .ledgerWrite cfg.name (round1 (s.actual / cfg.area))]
    ∧ (∀ (nS fuel idx : ℕ) (z : ZoneSpec) (rest : List ZoneSpec)
        (lpm : ℚ) (i : ℕ) (e : List Effect),
        z.target = some lpm →
        runN (zoneCfg false nS z lpm) z.ticks
            (sessionInit (zoneCfg false nS z lpm) idx z.prime) fuel = .done .failed i e →
        runProgram false false nS fuel idx (z :: rest) = ([(z.name, .failed)], e)) := by
  constructor
  · rw [monStep_exhaust_eq cfg s tk hint hlow hprev hlast]
    simp [hem, saveIrr, hpos]
  · intro nS fuel idx z rest lpm i e hz hrun
    simp [runProgram, hz, hrun]

theorem C1_exhaustion_witness :
    monStep ⟨false, "Z1", 2, 100, 1/2, 2⟩ ⟨1, 1, 5940, 0⟩ tickZero
      = .done .failed 1 [.closeSourceValve 1, .closeZoneValve,
          .ledgerWrite "Z1" (round1 (1 / 2))] :=
  (C1_exhaustion ⟨false, "Z1", 2, 100, 1/2, 2⟩ ⟨1, 1, 5940, 0⟩ tickZero
    rfl rfl (by norm_num [tickZero]) (by norm_num) (by decide) (by norm_num)).1

end Irrigation
